import Mathlib

/-!
Verification of the TV-show data-integrity validator.

Shallow embedding of `src/data_integrity.py`.  The Python class
`DataIntegrityValidator` runs read-only SQL queries over two tables,
`programs` and `program_intervals`, and aggregates the results into
per-check dictionaries plus a comprehensive summary; the paired helper
`format_validation_report` renders the summary as text.

The embedding models the database state as in-memory lists of rows.
Times of day are minutes since midnight (`Nat`); a SQL `NULL` time is
`none`.  SQL comparisons involving `NULL` are *unknown* and a `WHERE`
clause keeps a row only when its condition is *true*, so the embedded
comparison operators collapse `unknown` to `false`.
-/

/-- A row of the `programs` table.  `start_time`/`end_time` are minutes
since midnight; `none` models SQL `NULL`. -/
structure Program where
  id : Nat
  program_name : String
  start_time : Option Nat
  end_time : Option Nat
  deriving Repr, DecidableEq

/-- A row of the `program_intervals` table. -/
structure ProgramInterval where
  program_name : String
  interval_count : Int
  deriving Repr, DecidableEq

/-- The database state the validator queries. -/
structure Dataset where
  programs : List Program
  program_intervals : List ProgramInterval
  deriving Repr, DecidableEq

/-- SQL `<` on nullable times: `NULL` comparisons are unknown, which a
`WHERE` clause treats as false. -/
def sqlLt : Option Nat → Option Nat → Bool
  | some a, some b => decide (a < b)
  | _, _ => false

/-- SQL `>` on nullable times. -/
def sqlGt : Option Nat → Option Nat → Bool
  | some a, some b => decide (a > b)
  | _, _ => false

/-- SQL `=` on nullable times. -/
def sqlEqT : Option Nat → Option Nat → Bool
  | some a, some b => decide (a = b)
  | _, _ => false

/-! Embedding of `validate_referential_integrity`. -/

/-- Result dictionary of `validate_referential_integrity`. -/
structure RefIntegrityResult where
  is_valid : Bool
  errors : List String
  orphaned_intervals : List String
  missing_intervals : List String
  deriving Repr, DecidableEq

/-- Does some `programs` row carry this name?  (The `LEFT JOIN … IS NULL`
test of the first query.) -/
def hasMatchingProgram (ds : Dataset) (n : String) : Bool :=
  ds.programs.any fun p => p.program_name = n

/-- Does some `program_intervals` row carry this name? -/
def hasMatchingInterval (ds : Dataset) (n : String) : Bool :=
  ds.program_intervals.any fun pi => pi.program_name = n

/-- Names selected by the orphaned-intervals query: one row per
`program_intervals` row with no matching `programs` row. -/
def orphanedIntervals (ds : Dataset) : List String :=
  (ds.program_intervals.filter fun pi =>
    !hasMatchingProgram ds pi.program_name).map (·.program_name)

/-- Names selected by the missing-intervals query: one row per `programs`
row with no matching `program_intervals` row. -/
def missingIntervals (ds : Dataset) : List String :=
  (ds.programs.filter fun p =>
    !hasMatchingInterval ds p.program_name).map (·.program_name)

/-- Embeds `DataIntegrityValidator.validate_referential_integrity`. -/
def validate_referential_integrity (ds : Dataset) : RefIntegrityResult :=
  let orphaned := orphanedIntervals ds
  let missing := missingIntervals ds
  { is_valid := orphaned.isEmpty && missing.isEmpty
    errors :=
      (if orphaned.isEmpty then [] else
        ["Found " ++ toString orphaned.length ++ " orphaned interval records"]) ++
      (if missing.isEmpty then [] else
        ["Found " ++ toString missing.length ++ " programs without interval records"])
    orphaned_intervals := orphaned
    missing_intervals := missing }

/-- A dataset with two `programs` rows of the same name but only one
matching `program_intervals` row: name sets match, name multisets do not. -/
def dupNameDs : Dataset :=
  { programs :=
      [{ id := 1, program_name := "A", start_time := some 540, end_time := some 600 },
       { id := 2, program_name := "A", start_time := some 600, end_time := some 660 }]
    program_intervals := [{ program_name := "A", interval_count := 4 }] }

example : (validate_referential_integrity dupNameDs).is_valid = true := by decide

example :
    (validate_referential_integrity
      { programs := [{ id := 1, program_name := "A", start_time := some 0, end_time := some 60 }]
        program_intervals := [{ program_name := "B", interval_count := 1 }] }).orphaned_intervals
      = ["B"] := by decide

lemma orphanedIntervals_eq_nil (ds : Dataset) :
    orphanedIntervals ds = [] ↔
      ∀ pi ∈ ds.program_intervals, ∃ p ∈ ds.programs,
        p.program_name = pi.program_name := by
  simp [orphanedIntervals, hasMatchingProgram, List.map_eq_nil_iff,
    List.filter_eq_nil_iff]

lemma missingIntervals_eq_nil (ds : Dataset) :
    missingIntervals ds = [] ↔
      ∀ p ∈ ds.programs, ∃ pi ∈ ds.program_intervals,
        pi.program_name = p.program_name := by
  simp [missingIntervals, hasMatchingInterval, List.map_eq_nil_iff,
    List.filter_eq_nil_iff]

lemma mem_orphanedIntervals (ds : Dataset) (pi : ProgramInterval)
    (hmem : pi ∈ ds.program_intervals)
    (h : ∀ p ∈ ds.programs, p.program_name ≠ pi.program_name) :
    pi.program_name ∈ orphanedIntervals ds := by
  simp only [orphanedIntervals, List.mem_map, List.mem_filter]
  refine ⟨pi, ⟨hmem, ?_⟩, rfl⟩
  simp only [hasMatchingProgram, Bool.not_eq_eq_eq_not, Bool.not_true,
    List.any_eq_false, decide_eq_true_eq]
  exact h

lemma mem_missingIntervals (ds : Dataset) (p : Program)
    (hmem : p ∈ ds.programs)
    (h : ∀ pi ∈ ds.program_intervals, pi.program_name ≠ p.program_name) :
    p.program_name ∈ missingIntervals ds := by
  simp only [missingIntervals, List.mem_map, List.mem_filter]
  refine ⟨p, ⟨hmem, ?_⟩, rfl⟩
  simp only [hasMatchingInterval, Bool.not_eq_eq_eq_not, Bool.not_true,
    List.any_eq_false, decide_eq_true_eq]
  exact h

/-- Claim C1 (amended).  `validate_referential_integrity` returns
`is_valid = true` with empty `orphaned_intervals` and `missing_intervals`
iff the *sets* of names correspond: every interval row's name has a
matching program row and every program row's name has a matching interval
row (multiplicities are not compared); every interval name with no
matching program appears in `orphaned_intervals`, every program name with
no matching interval appears in `missing_intervals`, and `is_valid` is
false whenever either list is non-empty. -/
theorem referential_integrity_name_sets (ds : Dataset) :
    (((validate_referential_integrity ds).is_valid = true ∧
        (validate_referential_integrity ds).orphaned_intervals = [] ∧
        (validate_referential_integrity ds).missing_intervals = []) ↔
      ((∀ pi ∈ ds.program_intervals, ∃ p ∈ ds.programs,
          p.program_name = pi.program_name) ∧
       (∀ p ∈ ds.programs, ∃ pi ∈ ds.program_intervals,
          pi.program_name = p.program_name))) ∧
    (∀ pi ∈ ds.program_intervals,
      (∀ p ∈ ds.programs, p.program_name ≠ pi.program_name) →
        pi.program_name ∈ (validate_referential_integrity ds).orphaned_intervals) ∧
    (∀ p ∈ ds.programs,
      (∀ pi ∈ ds.program_intervals, pi.program_name ≠ p.program_name) →
        p.program_name ∈ (validate_referential_integrity ds).missing_intervals) ∧
    (((validate_referential_integrity ds).orphaned_intervals ≠ [] ∨
        (validate_referential_integrity ds).missing_intervals ≠ []) →
      (validate_referential_integrity ds).is_valid = false) := by
  refine ⟨?_, ?_, ?_, ?_⟩
  · simp only [validate_referential_integrity, Bool.and_eq_true,
      List.isEmpty_eq_true, orphanedIntervals_eq_nil, missingIntervals_eq_nil]
    tauto
  · exact fun pi hmem h => mem_orphanedIntervals ds pi hmem h
  · exact fun p hmem h => mem_missingIntervals ds p hmem h
  · simp only [validate_referential_integrity]
    intro h
    rcases h with h | h <;>
      simp [List.isEmpty_eq_false.mpr h]

/-- Claim C1 counterexample to the claim as stated: in `dupNameDs` the name
*multisets* (two programs `"A"`, one interval `"A"`) do not correspond 1:1,
yet the check passes with empty lists. -/
theorem referential_integrity_multiset_cex :
    (validate_referential_integrity dupNameDs).is_valid = true ∧
    (validate_referential_integrity dupNameDs).orphaned_intervals = [] ∧
    (validate_referential_integrity dupNameDs).missing_intervals = [] ∧
    ¬ ((dupNameDs.programs.map Program.program_name : Multiset String) =
        (dupNameDs.program_intervals.map ProgramInterval.program_name : Multiset String)) := by
  refine ⟨by decide, by decide, by decide, ?_⟩
  decide

/-! Embedding of `validate_time_constraints`. -/

/-- Result dictionary of `validate_time_constraints`. -/
structure TimeConstraintsResult where
  is_valid : Bool
  errors : List String
  invalid_times : List Program
  overlapping_programs : List (Program × Program)
  negative_durations : List Program
  deriving Repr, DecidableEq

/-- Rows selected by the invalid-times query (`start_time IS NULL OR
end_time IS NULL OR …::text = ''`; the cast of an actual time value is
never the empty string, so only the `NULL` tests can fire). -/
def invalidTimes (ds : Dataset) : List Program :=
  ds.programs.filter fun p => p.start_time.isNone || p.end_time.isNone

/-- Join/`WHERE` condition of the overlap query: `p1.id < p2.id`,
linear overlap, and neither program individually wraps past midnight. -/
def overlapCond (p1 p2 : Program) : Bool :=
  decide (p1.id < p2.id) &&
    sqlLt p1.start_time p2.end_time &&
    sqlGt p1.end_time p2.start_time &&
    !(sqlGt p1.start_time p1.end_time || sqlGt p2.start_time p2.end_time)

/-- Row pairs selected by the overlap self-join. -/
def overlappingPrograms (ds : Dataset) : List (Program × Program) :=
  ds.programs.flatMap fun p1 =>
    (ds.programs.filter fun p2 => overlapCond p1 p2).map fun p2 => (p1, p2)

/-- Rows selected by the negative-duration query: `start_time > end_time`
and not (`start_time > '12:00'` and `end_time < '12:00'`), noon being
minute 720. -/
def negativeDurations (ds : Dataset) : List Program :=
  ds.programs.filter fun p =>
    sqlGt p.start_time p.end_time &&
      !(sqlGt p.start_time (some 720) && sqlLt p.end_time (some 720))

/-- Embeds `DataIntegrityValidator.validate_time_constraints`. -/
def validate_time_constraints (ds : Dataset) : TimeConstraintsResult :=
  let invalid := invalidTimes ds
  let overlapping := overlappingPrograms ds
  let negative := negativeDurations ds
  { is_valid := invalid.isEmpty && overlapping.isEmpty && negative.isEmpty
    errors :=
      (if invalid.isEmpty then [] else
        ["Found " ++ toString invalid.length ++ " programs with invalid time values"]) ++
      (if overlapping.isEmpty then [] else
        ["Found " ++ toString overlapping.length ++ " overlapping program pairs"]) ++
      (if negative.isEmpty then [] else
        ["Found " ++ toString negative.length ++ " programs with negative durations"])
    invalid_times := invalid
    overlapping_programs := overlapping
    negative_durations := negative }

lemma mem_overlappingPrograms (ds : Dataset) (p1 p2 : Program) :
    (p1, p2) ∈ overlappingPrograms ds ↔
      p1 ∈ ds.programs ∧ p2 ∈ ds.programs ∧ overlapCond p1 p2 = true := by
  simp only [overlappingPrograms, List.mem_flatMap, List.mem_map,
    List.mem_filter, Prod.mk.injEq]
  constructor
  · rintro ⟨q1, hq1, q2, ⟨hq2, hc⟩, h1, h2⟩
    subst h1; subst h2; exact ⟨hq1, hq2, hc⟩
  · rintro ⟨h1, h2, hc⟩
    exact ⟨p1, h1, p2, ⟨h2, hc⟩, rfl, rfl⟩

lemma mem_negativeDurations (ds : Dataset) (p : Program) :
    p ∈ negativeDurations ds ↔
      p ∈ ds.programs ∧
        (sqlGt p.start_time p.end_time &&
          !(sqlGt p.start_time (some 720) && sqlLt p.end_time (some 720))) = true := by
  simp [negativeDurations, List.mem_filter]

lemma vtc_invalid (ds : Dataset) :
    (validate_time_constraints ds).invalid_times = invalidTimes ds := rfl

lemma vtc_overlapping (ds : Dataset) :
    (validate_time_constraints ds).overlapping_programs = overlappingPrograms ds := rfl

lemma vtc_negative (ds : Dataset) :
    (validate_time_constraints ds).negative_durations = negativeDurations ds := rfl

lemma vtc_is_valid (ds : Dataset) :
    (validate_time_constraints ds).is_valid =
      ((invalidTimes ds).isEmpty && (overlappingPrograms ds).isEmpty &&
        (negativeDurations ds).isEmpty) := rfl

/-- Claim C2.  For id-ordered pairs of programs in the dataset, neither of
which is overnight (`start > end`), the pair is reported in
`overlapping_programs` iff `A.start < B.end` and `A.end > B.start`; a pair
in which either program is overnight is never reported; an adjacent pair
with `A.end = B.start` is never reported; and a non-empty
`overlapping_programs` list forces `is_valid = false`. -/
theorem time_constraints_overlap_pairs (ds : Dataset) :
    (∀ p1 ∈ ds.programs, ∀ p2 ∈ ds.programs, ∀ s1 e1 s2 e2 : Nat,
      p1.start_time = some s1 → p1.end_time = some e1 →
      p2.start_time = some s2 → p2.end_time = some e2 →
      p1.id < p2.id → ¬ s1 > e1 → ¬ s2 > e2 →
      ((p1, p2) ∈ (validate_time_constraints ds).overlapping_programs ↔
        (s1 < e2 ∧ e1 > s2))) ∧
    (∀ p1 p2 : Program,
      (sqlGt p1.start_time p1.end_time || sqlGt p2.start_time p2.end_time) = true →
        (p1, p2) ∉ (validate_time_constraints ds).overlapping_programs) ∧
    (∀ p1 p2 : Program, ∀ e1 s2 : Nat,
      p1.end_time = some e1 → p2.start_time = some s2 → e1 = s2 →
        (p1, p2) ∉ (validate_time_constraints ds).overlapping_programs) ∧
    ((validate_time_constraints ds).overlapping_programs ≠ [] →
      (validate_time_constraints ds).is_valid = false) := by
  refine ⟨?_, ?_, ?_, ?_⟩
  · intro p1 hm1 p2 hm2 s1 e1 s2 e2 hs1 he1 hs2 he2 hid hn1 hn2
    rw [vtc_overlapping, mem_overlappingPrograms]
    simp [overlapCond, sqlLt, sqlGt, hs1, he1, hs2, he2, hid, hn1, hn2, hm1, hm2]
  · intro p1 p2 hov
    rw [vtc_overlapping, mem_overlappingPrograms]
    rintro ⟨-, -, hc⟩
    simp only [overlapCond, Bool.and_eq_true, Bool.not_eq_eq_eq_not,
      Bool.not_true, Bool.or_eq_false_iff] at hc
    rcases Bool.or_eq_true_iff.mp hov with h | h
    · rw [hc.2.1] at h; exact Bool.false_ne_true h
    · rw [hc.2.2] at h; exact Bool.false_ne_true h
  · intro p1 p2 e1 s2 he1 hs2 heq
    rw [vtc_overlapping, mem_overlappingPrograms]
    rintro ⟨-, -, hc⟩
    simp only [overlapCond, Bool.and_eq_true] at hc
    have h := hc.1.2
    rw [he1, hs2, heq] at h
    simp [sqlGt] at h
  · intro h
    rw [vtc_overlapping] at h
    rw [vtc_is_valid]
    simp [List.isEmpty_eq_false.mpr h]

/-- Claim C5.  A program with concrete times is reported in
`negative_durations` iff `start > end` and not (`start` after noon and
`end` before noon); a non-empty `negative_durations` list appends the
negative-duration error message and forces `is_valid = false`. -/
theorem negative_duration_noon_heuristic (ds : Dataset) :
    (∀ p ∈ ds.programs, ∀ s e : Nat,
      p.start_time = some s → p.end_time = some e →
      (p ∈ (validate_time_constraints ds).negative_durations ↔
        (s > e ∧ ¬ (s > 720 ∧ e < 720)))) ∧
    ((validate_time_constraints ds).negative_durations ≠ [] →
      ("Found " ++ toString (validate_time_constraints ds).negative_durations.length ++
          " programs with negative durations") ∈ (validate_time_constraints ds).errors ∧
        (validate_time_constraints ds).is_valid = false) := by
  constructor
  · intro p hm s e hs he
    rw [vtc_negative, mem_negativeDurations]
    simp [sqlGt, sqlLt, hs, he, hm, and_assoc]
    omega
  · intro h
    rw [vtc_negative] at h
    refine ⟨?_, by rw [vtc_is_valid]; simp [List.isEmpty_eq_false.mpr h]⟩
    show _ ∈ (validate_time_constraints ds).errors
    simp only [validate_time_constraints, vtc_negative, List.isEmpty_eq_false.mpr h]
    simp [List.mem_append]

/-! Embedding of `validate_interval_calculations`.

The SQL function `count_15min_intervals` lives in the database, outside
this repository; the check is therefore parameterized by an arbitrary
total function `f : Nat → Nat → Int` standing for it (a SQL function is
strict, so a `NULL` argument yields `NULL` and the `!=` test is unknown,
dropping the row). -/

/-- A row selected by the mismatch query: name, the two times, the stored
count and the recalculated count. -/
structure CalcMismatch where
  program_name : String
  start_time : Option Nat
  end_time : Option Nat
  stored_count : Int
  calculated_count : Int
  deriving Repr, DecidableEq

/-- Result dictionary of `validate_interval_calculations`. -/
structure IntervalCalcResult where
  is_valid : Bool
  errors : List String
  incorrect_calculations : List CalcMismatch
  deriving Repr, DecidableEq

/-- One candidate row of the join `programs p JOIN program_intervals pi ON
p.program_name = pi.program_name WHERE pi.interval_count !=
count_15min_intervals(p.start_time, p.end_time)`. -/
def calcMismatchRow (f : Nat → Nat → Int) (p : Program) (pi : ProgramInterval) :
    Option CalcMismatch :=
  if pi.program_name = p.program_name then
    match p.start_time, p.end_time with
    | some s, some e =>
        if pi.interval_count ≠ f s e then
          some { program_name := p.program_name, start_time := p.start_time,
                 end_time := p.end_time, stored_count := pi.interval_count,
                 calculated_count := f s e }
        else none
    | _, _ => none
  else none

/-- Rows selected by the mismatch query. -/
def incorrectCalculations (f : Nat → Nat → Int) (ds : Dataset) : List CalcMismatch :=
  ds.programs.flatMap fun p => ds.program_intervals.filterMap (calcMismatchRow f p)

/-- Embeds `DataIntegrityValidator.validate_interval_calculations`. -/
def validate_interval_calculations (f : Nat → Nat → Int) (ds : Dataset) :
    IntervalCalcResult :=
  let incorrect := incorrectCalculations f ds
  { is_valid := incorrect.isEmpty
    errors :=
      if incorrect.isEmpty then [] else
        ["Found " ++ toString incorrect.length ++
          " programs with incorrect interval calculations"]
    incorrect_calculations := incorrect }

lemma calcMismatchRow_eq_some (f : Nat → Nat → Int) (p : Program)
    (pi : ProgramInterval) (m : CalcMismatch) :
    calcMismatchRow f p pi = some m ↔
      pi.program_name = p.program_name ∧
      ∃ s e : Nat, p.start_time = some s ∧ p.end_time = some e ∧
        pi.interval_count ≠ f s e ∧
        m = { program_name := p.program_name, start_time := p.start_time,
              end_time := p.end_time, stored_count := pi.interval_count,
              calculated_count := f s e } := by
  cases hps : p.start_time with
  | none => simp [calcMismatchRow, hps]
  | some s =>
    cases hpe : p.end_time with
    | none => simp [calcMismatchRow, hps, hpe]
    | some e =>
      by_cases hn : pi.program_name = p.program_name
      · by_cases hc : pi.interval_count = f s e
        · simp [calcMismatchRow, hps, hpe, hn, hc]
        · simp [calcMismatchRow, hps, hpe, hn, hc, eq_comm]
      · simp [calcMismatchRow, hps, hpe, hn]

lemma mem_incorrectCalculations (f : Nat → Nat → Int) (ds : Dataset)
    (m : CalcMismatch) :
    m ∈ incorrectCalculations f ds ↔
      ∃ p ∈ ds.programs, ∃ pi ∈ ds.program_intervals,
        calcMismatchRow f p pi = some m := by
  simp [incorrectCalculations, List.mem_flatMap, List.mem_filterMap]

lemma stored_ne_calculated_of_mem (f : Nat → Nat → Int) (ds : Dataset)
    (m : CalcMismatch) (h : m ∈ incorrectCalculations f ds) :
    m.stored_count ≠ m.calculated_count := by
  rw [mem_incorrectCalculations] at h
  obtain ⟨p, -, pi, -, hrow⟩ := h
  rw [calcMismatchRow_eq_some] at hrow
  obtain ⟨-, s, e, -, -, hne, hm⟩ := hrow
  subst hm
  simpa using hne

lemma vic_incorrect (f : Nat → Nat → Int) (ds : Dataset) :
    (validate_interval_calculations f ds).incorrect_calculations =
      incorrectCalculations f ds := rfl

lemma vic_is_valid (f : Nat → Nat → Int) (ds : Dataset) :
    (validate_interval_calculations f ds).is_valid =
      (incorrectCalculations f ds).isEmpty := rfl

/-- Claim C3.  For every joined pair (program, matching interval row) with
concrete times, the mismatch record built from the pair — carrying the
program name, the stored count and the recalculated count — is reported
in `incorrect_calculations` iff the stored count differs from what the
external count function computes; every reported record has
`stored_count ≠ calculated_count`; and `is_valid` is false exactly when
at least one mismatch exists. -/
theorem interval_calculations_mismatch (f : Nat → Nat → Int) (ds : Dataset) :
    (∀ p ∈ ds.programs, ∀ pi ∈ ds.program_intervals,
      pi.program_name = p.program_name →
      ∀ s e : Nat, p.start_time = some s → p.end_time = some e →
        (({ program_name := p.program_name, start_time := p.start_time,
            end_time := p.end_time, stored_count := pi.interval_count,
            calculated_count := f s e } : CalcMismatch) ∈
              (validate_interval_calculations f ds).incorrect_calculations ↔
          pi.interval_count ≠ f s e)) ∧
    (∀ m ∈ (validate_interval_calculations f ds).incorrect_calculations,
      m.stored_count ≠ m.calculated_count) ∧
    ((validate_interval_calculations f ds).is_valid = false ↔
      (validate_interval_calculations f ds).incorrect_calculations ≠ []) := by
  refine ⟨?_, ?_, ?_⟩
  · intro p hp pi hpi hn s e hs he
    constructor
    · intro hmem
      have := stored_ne_calculated_of_mem f ds _ ((vic_incorrect f ds) ▸ hmem)
      simpa using this
    · intro hne
      rw [vic_incorrect, mem_incorrectCalculations]
      exact ⟨p, hp, pi, hpi,
        (calcMismatchRow_eq_some f p pi _).mpr ⟨hn, s, e, hs, he, hne, rfl⟩⟩
  · intro m hm
    exact stored_ne_calculated_of_mem f ds m ((vic_incorrect f ds) ▸ hm)
  · rw [vic_is_valid, vic_incorrect]
    exact List.isEmpty_eq_false

/-! Embedding of `validate_data_quality`.

Note the result dictionary has *no* `warnings` key: all four findings,
including the tolerated zero-duration one, are appended to `errors`. -/

/-- Result dictionary of `validate_data_quality`. -/
structure DataQualityResult where
  is_valid : Bool
  errors : List String
  duplicate_names : List (String × Nat)
  empty_names : List Program
  long_names : List (String × Nat)
  zero_duration : List Program
  deriving Repr, DecidableEq

/-- Rows of `GROUP BY program_name HAVING COUNT(*) > 1`: each distinct
name occurring more than once, with its multiplicity. -/
def duplicateNames (ds : Dataset) : List (String × Nat) :=
  (ds.programs.map (·.program_name)).dedup.filterMap fun n =>
    if 1 < (ds.programs.map (·.program_name)).count n then
      some (n, (ds.programs.map (·.program_name)).count n)
    else none

/-- SQL `TRIM`: strip leading and trailing spaces (executable so that
concrete datasets evaluate by kernel reduction). -/
def sqlTrim (s : String) : String :=
  String.mk (((s.data.dropWhile (· = ' ')).reverse.dropWhile (· = ' ')).reverse)

/-- Rows with a `NULL`, empty or whitespace-only name (names are total
strings here, so the `TRIM(program_name) = ''` test covers all three SQL
disjuncts). -/
def emptyNames (ds : Dataset) : List Program :=
  ds.programs.filter fun p => sqlTrim p.program_name = ""

/-- Rows whose name exceeds 255 characters, with the length. -/
def longNames (ds : Dataset) : List (String × Nat) :=
  (ds.programs.filter fun p => 255 < p.program_name.length).map fun p =>
    (p.program_name, p.program_name.length)

/-- Rows with `start_time = end_time`. -/
def zeroDuration (ds : Dataset) : List Program :=
  ds.programs.filter fun p => sqlEqT p.start_time p.end_time

/-- Embeds `DataIntegrityValidator.validate_data_quality`.  The zero-duration
branch appends its message to `errors` but does not clear `is_valid`. -/
def validate_data_quality (ds : Dataset) : DataQualityResult :=
  let duplicates := duplicateNames ds
  let empty := emptyNames ds
  let long := longNames ds
  let zero := zeroDuration ds
  { is_valid := duplicates.isEmpty && empty.isEmpty && long.isEmpty
    errors :=
      (if duplicates.isEmpty then [] else
        ["Found " ++ toString duplicates.length ++ " duplicate program names"]) ++
      (if empty.isEmpty then [] else
        ["Found " ++ toString empty.length ++ " programs with empty names"]) ++
      (if long.isEmpty then [] else
        ["Found " ++ toString long.length ++
          " programs with names exceeding 255 characters"]) ++
      (if zero.isEmpty then [] else
        ["Found " ++ toString zero.length ++ " zero-duration programs (may be valid)"])
    duplicate_names := duplicates
    empty_names := empty
    long_names := long
    zero_duration := zero }

lemma vdq_duplicates (ds : Dataset) :
    (validate_data_quality ds).duplicate_names = duplicateNames ds := rfl

lemma vdq_empty (ds : Dataset) :
    (validate_data_quality ds).empty_names = emptyNames ds := rfl

lemma vdq_long (ds : Dataset) :
    (validate_data_quality ds).long_names = longNames ds := rfl

lemma vdq_zero (ds : Dataset) :
    (validate_data_quality ds).zero_duration = zeroDuration ds := rfl

lemma vdq_is_valid (ds : Dataset) :
    (validate_data_quality ds).is_valid =
      ((duplicateNames ds).isEmpty && (emptyNames ds).isEmpty &&
        (longNames ds).isEmpty) := rfl

/-- Claim C6.  Every program with equal (non-`NULL`) start and end appears
in `zero_duration`, and `is_valid` is true iff the duplicate, empty-name
and long-name lists are all empty — the `zero_duration` list alone never
makes the data-quality check invalid. -/
theorem zero_duration_nonblocking (ds : Dataset) :
    (∀ p ∈ ds.programs, ∀ t : Nat,
      p.start_time = some t → p.end_time = some t →
        p ∈ (validate_data_quality ds).zero_duration) ∧
    ((validate_data_quality ds).is_valid = true ↔
      ((validate_data_quality ds).duplicate_names = [] ∧
        (validate_data_quality ds).empty_names = [] ∧
        (validate_data_quality ds).long_names = [])) := by
  constructor
  · intro p hp t hs he
    rw [vdq_zero]
    simp [zeroDuration, List.mem_filter, sqlEqT, hs, he, hp]
  · rw [vdq_is_valid, vdq_duplicates, vdq_empty, vdq_long]
    simp [and_assoc]

lemma vdq_errors (ds : Dataset) :
    (validate_data_quality ds).errors =
      (if (duplicateNames ds).isEmpty then [] else
        ["Found " ++ toString (duplicateNames ds).length ++ " duplicate program names"]) ++
      (if (emptyNames ds).isEmpty then [] else
        ["Found " ++ toString (emptyNames ds).length ++ " programs with empty names"]) ++
      (if (longNames ds).isEmpty then [] else
        ["Found " ++ toString (longNames ds).length ++
          " programs with names exceeding 255 characters"]) ++
      (if (zeroDuration ds).isEmpty then [] else
        ["Found " ++ toString (zeroDuration ds).length ++
          " zero-duration programs (may be valid)"]) := rfl

/-- A dataset whose only data-quality finding is one zero-duration
program. -/
def zeroDs : Dataset :=
  { programs := [{ id := 1, program_name := "Standby Loop",
                   start_time := some 600, end_time := some 600 }]
    program_intervals := [{ program_name := "Standby Loop", interval_count := 0 }] }

/-- Claim C7 counterexample to the claim as stated: the zero-duration
finding *does* appear among the data-quality `errors` strings (the
result dictionary has no warnings list), even though `is_valid` stays
true. -/
theorem zero_duration_message_cex :
    (validate_data_quality zeroDs).is_valid = true ∧
    (validate_data_quality zeroDs).zero_duration ≠ [] ∧
    "Found 1 zero-duration programs (may be valid)" ∈
      (validate_data_quality zeroDs).errors := by
  refine ⟨by decide, by decide, by decide⟩

/-- Claim C7 (amended).  The zero-duration finding is surfaced inside the
data-quality `errors` list (tagged "may be valid"), not in a separate
warnings list — the result has none — and it leaves `is_valid` true when
no other finding exists. -/
theorem zero_duration_message_in_errors (ds : Dataset) :
    ((validate_data_quality ds).zero_duration ≠ [] →
      ("Found " ++ toString (validate_data_quality ds).zero_duration.length ++
          " zero-duration programs (may be valid)") ∈
        (validate_data_quality ds).errors) ∧
    ((validate_data_quality ds).zero_duration ≠ [] →
      (validate_data_quality ds).duplicate_names = [] →
      (validate_data_quality ds).empty_names = [] →
      (validate_data_quality ds).long_names = [] →
      (validate_data_quality ds).is_valid = true) := by
  constructor
  · intro h
    rw [vdq_zero] at h
    rw [vdq_errors, vdq_zero]
    simp [List.isEmpty_eq_false.mpr h]
  · intro h hd he hl
    rw [vdq_duplicates] at hd
    rw [vdq_empty] at he
    rw [vdq_long] at hl
    rw [vdq_is_valid]
    simp [hd, he, hl]

/-! Embedding of `validate_business_rules`. -/

/-- A row selected by the longer-than-24-hours query, with the computed
duration (minutes; `none` when a time is `NULL`). -/
structure LongProgramRow where
  program_name : String
  start_time : Option Nat
  end_time : Option Nat
  duration_minutes : Option Int
  deriving Repr, DecidableEq

/-- The Python code extends `suspicious_patterns` with whole rows from
the duration query and with bare names from the keyword query, so the
list is heterogeneous. -/
inductive SuspiciousEntry where
  | row : LongProgramRow → SuspiciousEntry
  | name : String → SuspiciousEntry
  deriving Repr, DecidableEq

/-- Result dictionary of `validate_business_rules`. -/
structure BusinessRulesResult where
  is_valid : Bool
  errors : List String
  warnings : List String
  suspicious_patterns : List SuspiciousEntry
  deriving Repr, DecidableEq

/-- The `CASE` duration in minutes: `24:00 - start + end` when
`end < start`, else `end - start`; `NULL` when either time is `NULL`
(a `NULL` comparison sends the `CASE` to its `ELSE` arm, whose
subtraction is again `NULL`). -/
def durationMinutes (p : Program) : Option Int :=
  match p.start_time, p.end_time with
  | some s, some e =>
      some (if e < s then (1440 - (s : Int)) + e else (e : Int) - s)
  | _, _ => none

/-- SQL `>` on nullable integer durations. -/
def sqlGtInt : Option Int → Option Int → Bool
  | some a, some b => decide (a > b)
  | _, _ => false

/-- Rows whose computed duration exceeds 1440 minutes (the query's
`HAVING` clause acts as a row filter on the computed column). -/
def longPrograms (ds : Dataset) : List LongProgramRow :=
  (ds.programs.filter fun p => sqlGtInt (durationMinutes p) (some 1440)).map fun p =>
    { program_name := p.program_name, start_time := p.start_time,
      end_time := p.end_time, duration_minutes := durationMinutes p }

/-- The `ILIKE ANY` denylist of the suspicious-name query. -/
def sqlKeywords : List String :=
  ["drop", "delete", "insert", "update", "select", "--", ";", "script"]

/-- ASCII lowering of a name, standing for `ILIKE`'s case folding. -/
def lowerStr (s : String) : String :=
  String.mk (s.data.map Char.toLower)

/-- Tests `program_name ILIKE '%kw%'` for some denylist keyword: the lowered
name contains the (lowercase) keyword as a contiguous substring. -/
def isSuspiciousName (n : String) : Bool :=
  sqlKeywords.any fun kw => decide (kw.data <:+: (lowerStr n).data)

/-- Names selected by the suspicious-name query. -/
def suspiciousNames (ds : Dataset) : List String :=
  (ds.programs.filter fun p => isSuspiciousName p.program_name).map (·.program_name)

/-- Is a minute-of-hour not aligned to a quarter hour?  (`NULL` extract
compares as unknown, so such rows are not selected.) -/
def minuteNotStandard : Option Nat → Bool
  | some t => !(t % 60 = 0 || t % 60 = 15 || t % 60 = 30 || t % 60 = 45)
  | none => false

/-- Rows selected by the non-standard-time-slot query. -/
def nonStandardTimes (ds : Dataset) : List Program :=
  ds.programs.filter fun p =>
    minuteNotStandard p.start_time || minuteNotStandard p.end_time

/-- Embeds `DataIntegrityValidator.validate_business_rules`.  Only the duration
check touches `is_valid`/`errors`; the other two findings go to
`warnings` (extending by an empty list is the identity, so the Python
`if` guards around `extend` are dropped). -/
def validate_business_rules (ds : Dataset) : BusinessRulesResult :=
  let long := longPrograms ds
  let suspicious := suspiciousNames ds
  let nonStandard := nonStandardTimes ds
  { is_valid := long.isEmpty
    errors :=
      if long.isEmpty then [] else
        ["Found " ++ toString long.length ++ " programs longer than 24 hours"]
    warnings :=
      (if suspicious.isEmpty then [] else
        ["Found " ++ toString suspicious.length ++ " programs with suspicious names"]) ++
      (if nonStandard.isEmpty then [] else
        ["Found " ++ toString nonStandard.length ++ " programs with non-standard time slots"])
    suspicious_patterns :=
      long.map SuspiciousEntry.row ++ suspicious.map SuspiciousEntry.name }

lemma vbr_is_valid (ds : Dataset) :
    (validate_business_rules ds).is_valid = (longPrograms ds).isEmpty := rfl

lemma vbr_errors (ds : Dataset) :
    (validate_business_rules ds).errors =
      (if (longPrograms ds).isEmpty then [] else
        ["Found " ++ toString (longPrograms ds).length ++
          " programs longer than 24 hours"]) := rfl

lemma vbr_warnings (ds : Dataset) :
    (validate_business_rules ds).warnings =
      (if (suspiciousNames ds).isEmpty then [] else
        ["Found " ++ toString (suspiciousNames ds).length ++
          " programs with suspicious names"]) ++
      (if (nonStandardTimes ds).isEmpty then [] else
        ["Found " ++ toString (nonStandardTimes ds).length ++
          " programs with non-standard time slots"]) := rfl

lemma vbr_patterns (ds : Dataset) :
    (validate_business_rules ds).suspicious_patterns =
      (longPrograms ds).map SuspiciousEntry.row ++
        (suspiciousNames ds).map SuspiciousEntry.name := rfl

/-- Claim C8.  A program whose name matches the SQL-keyword denylist
case-insensitively is listed (as a bare name) in `suspicious_patterns`
and triggers the suspicious-names message in `warnings`; the `errors`
list can only ever carry the longer-than-24-hours message, and
`is_valid` depends only on the duration check, so suspicious names alone
never invalidate the business-rules check. -/
theorem suspicious_names_warn_only (ds : Dataset) :
    (∀ p ∈ ds.programs, isSuspiciousName p.program_name = true →
      SuspiciousEntry.name p.program_name ∈
          (validate_business_rules ds).suspicious_patterns ∧
        ("Found " ++ toString (suspiciousNames ds).length ++
            " programs with suspicious names") ∈ (validate_business_rules ds).warnings) ∧
    (∀ e ∈ (validate_business_rules ds).errors,
      e = "Found " ++ toString (longPrograms ds).length ++
        " programs longer than 24 hours") ∧
    ((validate_business_rules ds).is_valid = true ↔ longPrograms ds = []) := by
  refine ⟨?_, ?_, ?_⟩
  · intro p hp hs
    have hmem : p.program_name ∈ suspiciousNames ds := by
      simp only [suspiciousNames, List.mem_map, List.mem_filter]
      exact ⟨p, ⟨hp, hs⟩, rfl⟩
    have hne : suspiciousNames ds ≠ [] := by
      intro h; rw [h] at hmem; exact List.not_mem_nil _ hmem
    constructor
    · rw [vbr_patterns]
      simp only [List.mem_append, List.mem_map]
      exact Or.inr ⟨p.program_name, hmem, rfl⟩
    · rw [vbr_warnings]
      simp [List.isEmpty_eq_false.mpr hne]
  · intro e he
    rw [vbr_errors] at he
    by_cases h : (longPrograms ds).isEmpty
    · rw [if_pos h] at he; exact absurd he (List.not_mem_nil e)
    · rw [if_neg h] at he; simpa using he
  · rw [vbr_is_valid]
    simp

/-! Embedding of `run_comprehensive_validation`. -/

/-- What the summary loop reads off one check's dictionary:
`is_valid`, `errors`, and `get('warnings', [])`. -/
structure CheckView where
  is_valid : Bool
  errors : List String
  warnings : List String
  deriving Repr, DecidableEq

/-- The running summary of the loop over the five checks. -/
structure SummaryState where
  overall_valid : Bool
  total_errors : Nat
  total_warnings : Nat
  checks_performed : Nat
  deriving Repr, DecidableEq

/-- One iteration of the summary loop: count the check; on an invalid
check clear `overall_valid` and add its error count; always add its
warning count. -/
def summaryStep (st : SummaryState) (c : CheckView) : SummaryState :=
  { overall_valid := st.overall_valid && c.is_valid
    total_errors :=
      if c.is_valid then st.total_errors else st.total_errors + c.errors.length
    total_warnings := st.total_warnings + c.warnings.length
    checks_performed := st.checks_performed + 1 }

/-- The five check dictionaries in insertion order, as the summary loop
sees them; only the business-rules result has a `warnings` key, the
other four read as `[]` through `.get('warnings', [])`. -/
def checkViews (ri : RefIntegrityResult) (tc : TimeConstraintsResult)
    (ic : IntervalCalcResult) (dq : DataQualityResult)
    (br : BusinessRulesResult) : List CheckView :=
  [{ is_valid := ri.is_valid, errors := ri.errors, warnings := [] },
   { is_valid := tc.is_valid, errors := tc.errors, warnings := [] },
   { is_valid := ic.is_valid, errors := ic.errors, warnings := [] },
   { is_valid := dq.is_valid, errors := dq.errors, warnings := [] },
   { is_valid := br.is_valid, errors := br.errors, warnings := br.warnings }]

/-- Result of `run_comprehensive_validation`: summary plus the five
per-check results under their own keys. -/
structure ComprehensiveResult where
  overall_valid : Bool
  total_errors : Nat
  total_warnings : Nat
  checks_performed : Nat
  referential_integrity : RefIntegrityResult
  time_constraints : TimeConstraintsResult
  interval_calculations : IntervalCalcResult
  data_quality : DataQualityResult
  business_rules : BusinessRulesResult
  deriving Repr, DecidableEq

/-- Embeds `DataIntegrityValidator.run_comprehensive_validation`, parameterized
like the interval check by the external count function `f`. -/
def run_comprehensive_validation (f : Nat → Nat → Int) (ds : Dataset) :
    ComprehensiveResult :=
  let ri := validate_referential_integrity ds
  let tc := validate_time_constraints ds
  let ic := validate_interval_calculations f ds
  let dq := validate_data_quality ds
  let br := validate_business_rules ds
  let st := (checkViews ri tc ic dq br).foldl summaryStep
    { overall_valid := true, total_errors := 0, total_warnings := 0,
      checks_performed := 0 }
  { overall_valid := st.overall_valid
    total_errors := st.total_errors
    total_warnings := st.total_warnings
    checks_performed := st.checks_performed
    referential_integrity := ri
    time_constraints := tc
    interval_calculations := ic
    data_quality := dq
    business_rules := br }

/-- The five views of a comprehensive run. -/
def runViews (f : Nat → Nat → Int) (ds : Dataset) : List CheckView :=
  checkViews (validate_referential_integrity ds) (validate_time_constraints ds)
    (validate_interval_calculations f ds) (validate_data_quality ds)
    (validate_business_rules ds)

lemma run_comprehensive_summary (f : Nat → Nat → Int) (ds : Dataset) :
    (run_comprehensive_validation f ds).overall_valid =
        ((runViews f ds).foldl summaryStep
          { overall_valid := true, total_errors := 0, total_warnings := 0,
            checks_performed := 0 }).overall_valid ∧
      (run_comprehensive_validation f ds).total_errors =
        ((runViews f ds).foldl summaryStep
          { overall_valid := true, total_errors := 0, total_warnings := 0,
            checks_performed := 0 }).total_errors ∧
      (run_comprehensive_validation f ds).total_warnings =
        ((runViews f ds).foldl summaryStep
          { overall_valid := true, total_errors := 0, total_warnings := 0,
            checks_performed := 0 }).total_warnings ∧
      (run_comprehensive_validation f ds).checks_performed =
        ((runViews f ds).foldl summaryStep
          { overall_valid := true, total_errors := 0, total_warnings := 0,
            checks_performed := 0 }).checks_performed :=
  ⟨rfl, rfl, rfl, rfl⟩


lemma summary_foldl_spec (vs : List CheckView) (st : SummaryState) :
    (vs.foldl summaryStep st).overall_valid =
        (st.overall_valid && vs.all (·.is_valid)) ∧
      (vs.foldl summaryStep st).total_errors =
        st.total_errors +
          ((vs.filter fun c => c.is_valid = false).map fun c => c.errors.length).sum ∧
      (vs.foldl summaryStep st).total_warnings =
        st.total_warnings + (vs.map fun c => c.warnings.length).sum ∧
      (vs.foldl summaryStep st).checks_performed =
        st.checks_performed + vs.length := by
  induction vs generalizing st with
  | nil => simp
  | cons c rest ih =>
    obtain ⟨h1, h2, h3, h4⟩ := ih (summaryStep st c)
    refine ⟨?_, ?_, ?_, ?_⟩
    · rw [List.foldl_cons, h1]
      simp [summaryStep, Bool.and_assoc]
    · rw [List.foldl_cons, h2]
      cases hc : c.is_valid <;> (simp [summaryStep, hc]; try omega)
    · rw [List.foldl_cons, h3]
      simp [summaryStep]
      omega
    · rw [List.foldl_cons, h4]
      simp [summaryStep]
      omega

/-- Claim C4.  The comprehensive summary satisfies: `checks_performed` is
the number of checks run (five); `total_errors` is the sum of the error
counts of exactly the invalid checks; `total_warnings` sums the warning
lists of all checks regardless of validity; and `overall_valid` is false
iff some individual check is invalid. -/
theorem comprehensive_summary_arithmetic (f : Nat → Nat → Int) (ds : Dataset) :
    (run_comprehensive_validation f ds).checks_performed = (runViews f ds).length ∧
    (runViews f ds).length = 5 ∧
    (run_comprehensive_validation f ds).total_errors =
      (((runViews f ds).filter fun c => c.is_valid = false).map
        fun c => c.errors.length).sum ∧
    (run_comprehensive_validation f ds).total_warnings =
      ((runViews f ds).map fun c => c.warnings.length).sum ∧
    ((run_comprehensive_validation f ds).overall_valid = false ↔
      ∃ c ∈ runViews f ds, c.is_valid = false) := by
  obtain ⟨hov, hte, htw, hcp⟩ := run_comprehensive_summary f ds
  obtain ⟨g1, g2, g3, g4⟩ := summary_foldl_spec (runViews f ds)
    { overall_valid := true, total_errors := 0, total_warnings := 0,
      checks_performed := 0 }
  refine ⟨?_, rfl, ?_, ?_, ?_⟩
  · rw [hcp, g4]; simp
  · rw [hte, g2]; simp
  · rw [htw, g3]; simp
  · rw [hov, g1]
    simp [List.all_eq_true]

lemma longPrograms_eq_nil (ds : Dataset)
    (hb : ∀ p ∈ ds.programs,
      p.start_time.getD 0 ≤ 1440 ∧ p.end_time.getD 0 ≤ 1440) :
    longPrograms ds = [] := by
  rw [longPrograms, List.map_eq_nil_iff, List.filter_eq_nil_iff]
  intro p hp
  obtain ⟨h1, h2⟩ := hb p hp
  cases hs : p.start_time with
  | none => simp [durationMinutes, sqlGtInt, hs]
  | some s =>
    cases he : p.end_time with
    | none => simp [durationMinutes, sqlGtInt, hs, he]
    | some e =>
      rw [hs] at h1
      rw [he] at h2
      simp only [Option.getD_some] at h1 h2
      simp only [durationMinutes, hs, he, sqlGtInt, gt_iff_lt,
        decide_eq_true_eq, decide_eq_false_iff_not, not_lt]
      split <;> omega

/-- Claim C9.  When every (non-`NULL`) time lies in `0 … 1440` minutes, the
computed duration never exceeds 24 hours, so the longer-than-24-hours
branch cannot fire: `validate_business_rules` returns `is_valid = true`
with empty `errors`, the comprehensive `overall_valid` reduces to the
other four checks, and `total_errors` is contributed only by the first
four views. -/
theorem business_rules_error_branch_unreachable (f : Nat → Nat → Int)
    (ds : Dataset)
    (hb : ∀ p ∈ ds.programs,
      p.start_time.getD 0 ≤ 1440 ∧ p.end_time.getD 0 ≤ 1440) :
    (validate_business_rules ds).errors = [] ∧
    (validate_business_rules ds).is_valid = true ∧
    ((run_comprehensive_validation f ds).overall_valid = true ↔
      ((validate_referential_integrity ds).is_valid = true ∧
        (validate_time_constraints ds).is_valid = true ∧
        (validate_interval_calculations f ds).is_valid = true ∧
        (validate_data_quality ds).is_valid = true)) ∧
    (run_comprehensive_validation f ds).total_errors =
      ((((runViews f ds).take 4).filter fun c => c.is_valid = false).map
        fun c => c.errors.length).sum := by
  have hlong := longPrograms_eq_nil ds hb
  have herr : (validate_business_rules ds).errors = [] := by
    rw [vbr_errors, hlong]
    simp
  have hval : (validate_business_rules ds).is_valid = true := by
    rw [vbr_is_valid, hlong]
    rfl
  obtain ⟨hov, hte, -, -⟩ := run_comprehensive_summary f ds
  obtain ⟨g1, g2, -, -⟩ := summary_foldl_spec (runViews f ds)
    { overall_valid := true, total_errors := 0, total_warnings := 0,
      checks_performed := 0 }
  refine ⟨herr, hval, ?_, ?_⟩
  · rw [hov, g1]
    simp [runViews, checkViews, hval, and_assoc]
  · rw [hte, g2]
    simp only [runViews, checkViews, List.take, List.filter, hval,
      decide_eq_true_eq]
    simp [hval]

/-- A constant stand-in for the external count function, used to
instantiate theorems at concrete inputs. -/
def constCount : Nat → Nat → Int := fun _ _ => 0

/-- Witness for C9 at the concrete dataset `zeroDs`. -/
theorem business_rules_error_branch_unreachable_witness :
    (∀ p ∈ zeroDs.programs,
      p.start_time.getD 0 ≤ 1440 ∧ p.end_time.getD 0 ≤ 1440) ∧
    ((validate_business_rules zeroDs).errors = [] ∧
      (validate_business_rules zeroDs).is_valid = true ∧
      ((run_comprehensive_validation constCount zeroDs).overall_valid = true ↔
        ((validate_referential_integrity zeroDs).is_valid = true ∧
          (validate_time_constraints zeroDs).is_valid = true ∧
          (validate_interval_calculations constCount zeroDs).is_valid = true ∧
          (validate_data_quality zeroDs).is_valid = true)) ∧
      (run_comprehensive_validation constCount zeroDs).total_errors =
        ((((runViews constCount zeroDs).take 4).filter
            fun c => c.is_valid = false).map fun c => c.errors.length).sum) :=
  ⟨by decide, business_rules_error_branch_unreachable constCount zeroDs (by decide)⟩

/-! Embedding of `format_validation_report`. -/

/-- Computes `'PASS' if flag else 'FAIL'`. -/
def statusWord (b : Bool) : String := if b then "PASS" else "FAIL"

/-- The `"=" * 60` separator line. -/
def eqLine : String := String.mk (List.replicate 60 '=')

/-- The lines one check contributes: upper-cased title, status, the
error lines, the warning lines (each prefixed `    - `), then a blank
line.  The error/warning headers appear only when the list is
non-empty. -/
def sectionLines (title : String) (valid : Bool)
    (errors warnings : List String) : List String :=
  [title, "  Status: " ++ statusWord valid] ++
    (if errors.isEmpty then [] else
      "  Errors:" :: errors.map (fun e => "    - " ++ e)) ++
    (if warnings.isEmpty then [] else
      "  Warnings:" :: warnings.map (fun w => "    - " ++ w)) ++
    [""]

/-- The report as the list of lines `format_validation_report` joins
with `"\n"`; the five check sections come in the fixed order of the
Python `checks` list (the four results without a warnings key read as
`[]`). -/
def format_validation_report_lines (r : ComprehensiveResult) : List String :=
  [eqLine, "DATA INTEGRITY VALIDATION REPORT", eqLine,
   "Overall Status: " ++ statusWord r.overall_valid,
   "Checks Performed: " ++ toString r.checks_performed,
   "Total Errors: " ++ toString r.total_errors,
   "Total Warnings: " ++ toString r.total_warnings,
   ""] ++
  sectionLines "REFERENTIAL INTEGRITY:" r.referential_integrity.is_valid
    r.referential_integrity.errors [] ++
  sectionLines "TIME CONSTRAINTS:" r.time_constraints.is_valid
    r.time_constraints.errors [] ++
  sectionLines "INTERVAL CALCULATIONS:" r.interval_calculations.is_valid
    r.interval_calculations.errors [] ++
  sectionLines "DATA QUALITY:" r.data_quality.is_valid
    r.data_quality.errors [] ++
  sectionLines "BUSINESS RULES:" r.business_rules.is_valid
    r.business_rules.errors r.business_rules.warnings ++
  [eqLine]

/-- Embeds `format_validation_report`: the joined text. -/
def format_validation_report (r : ComprehensiveResult) : String :=
  String.intercalate "\n" (format_validation_report_lines r)

lemma head_of_append (a b : String) (c : Char) (l : List Char)
    (h : a.data = c :: l) : (a ++ b).data.head? = some c := by
  rw [String.data_append, h]
  rfl

lemma sectionLines_head (t : String) (v : Bool) (es ws : List String) :
    ∀ s ∈ sectionLines t v es ws,
      s = t ∨ s = "" ∨ s.data.head? = some ' ' := by
  intro s hs
  simp only [sectionLines, List.mem_append, List.mem_cons, List.mem_singleton,
    List.not_mem_nil, or_false] at hs
  rcases hs with (((h | h) | h) | h) | h
  · exact Or.inl h
  · subst h
    exact Or.inr (Or.inr (head_of_append _ _ ' ' _ rfl))
  · split at h
    · exact absurd h (List.not_mem_nil s)
    · rcases List.mem_cons.mp h with h | h
      · subst h
        exact Or.inr (Or.inr rfl)
      · obtain ⟨e, -, he⟩ := List.mem_map.mp h
        subst he
        exact Or.inr (Or.inr (head_of_append _ _ ' ' _ rfl))
  · split at h
    · exact absurd h (List.not_mem_nil s)
    · rcases List.mem_cons.mp h with h | h
      · subst h
        exact Or.inr (Or.inr rfl)
      · obtain ⟨w, -, hw⟩ := List.mem_map.mp h
        subst hw
        exact Or.inr (Or.inr (head_of_append _ _ ' ' _ rfl))
  · exact Or.inr (Or.inl h)

lemma report_line_starting_O (r : ComprehensiveResult) :
    ∀ s ∈ format_validation_report_lines r, s.data.head? = some 'O' →
      s = "Overall Status: " ++ statusWord r.overall_valid := by
  intro s hs hO
  have contra : ∀ t : String, s = t → t.data.head? ≠ some 'O' → False := by
    intro t hst ht
    exact ht (hst ▸ hO)
  simp only [format_validation_report_lines, List.mem_append] at hs
  rcases hs with ((((((h | h) | h) | h) | h) | h) | h)
  · simp only [List.mem_cons, List.not_mem_nil, or_false] at h
    rcases h with h | h | h | h | h | h | h | h
    · exact absurd (contra _ h) (by simp [eqLine])
    · exact absurd (contra _ h) (by simp)
    · exact absurd (contra _ h) (by simp [eqLine])
    · exact h
    · subst h
      rw [head_of_append _ _ 'C' _ rfl] at hO
      exact absurd hO (by decide)
    · subst h
      rw [head_of_append _ _ 'T' _ rfl] at hO
      exact absurd hO (by decide)
    · subst h
      rw [head_of_append _ _ 'T' _ rfl] at hO
      exact absurd hO (by decide)
    · subst h
      exact absurd hO (by decide)
  all_goals first
  | (rcases sectionLines_head _ _ _ _ s h with h1 | h1 | h1
     · subst h1; exact absurd hO (by decide)
     · subst h1; exact absurd hO (by decide)
     · rw [h1] at hO; exact absurd hO (by decide))
  | (simp only [List.mem_singleton] at h
     subst h
     exact absurd hO (by simp [eqLine]))

lemma overall_pass_mem (r : ComprehensiveResult) :
    "Overall Status: PASS" ∈ format_validation_report_lines r ↔
      r.overall_valid = true := by
  constructor
  · intro h
    have hline := report_line_starting_O r _ h (by decide)
    cases hv : r.overall_valid
    · rw [hv] at hline
      exact absurd hline (by decide)
    · rfl
  · intro h
    have heq : "Overall Status: PASS" =
        "Overall Status: " ++ statusWord r.overall_valid := by
      rw [h]; decide
    rw [heq]
    simp [format_validation_report_lines]

lemma overall_fail_mem (r : ComprehensiveResult) :
    "Overall Status: FAIL" ∈ format_validation_report_lines r ↔
      r.overall_valid = false := by
  constructor
  · intro h
    have hline := report_line_starting_O r _ h (by decide)
    cases hv : r.overall_valid
    · rfl
    · rw [hv] at hline
      exact absurd hline (by decide)
  · intro h
    have heq : "Overall Status: FAIL" =
        "Overall Status: " ++ statusWord r.overall_valid := by
      rw [h]; decide
    rw [heq]
    simp [format_validation_report_lines]

lemma title_mem_sectionLines (t : String) (v : Bool) (es ws : List String) :
    t ∈ sectionLines t v es ws :=
  List.mem_append_left _ (List.mem_append_left _
    (List.mem_append_left _ (List.mem_cons_self _ _)))

/-- Claim C10.  The report is the newline-join of its lines; the line
`Overall Status: PASS` occurs iff `overall_valid` is true and
`Overall Status: FAIL` occurs iff it is false; each check's section
appears contiguously in the report, in the fixed order referential
integrity, time constraints, interval calculations, data quality,
business rules; within a section the second line is
`  Status: ` followed by `PASS` iff that check's `is_valid` is true
(`FAIL` iff false), and every error and warning string appears verbatim
(prefixed `    - `). -/
theorem report_format_properties (r : ComprehensiveResult) :
    format_validation_report r =
      String.intercalate "\n" (format_validation_report_lines r) ∧
    (("Overall Status: PASS" ∈ format_validation_report_lines r) ↔
      r.overall_valid = true) ∧
    (("Overall Status: FAIL" ∈ format_validation_report_lines r) ↔
      r.overall_valid = false) ∧
    (sectionLines "REFERENTIAL INTEGRITY:" r.referential_integrity.is_valid
      r.referential_integrity.errors [] <:+: format_validation_report_lines r) ∧
    (sectionLines "TIME CONSTRAINTS:" r.time_constraints.is_valid
      r.time_constraints.errors [] <:+: format_validation_report_lines r) ∧
    (sectionLines "INTERVAL CALCULATIONS:" r.interval_calculations.is_valid
      r.interval_calculations.errors [] <:+: format_validation_report_lines r) ∧
    (sectionLines "DATA QUALITY:" r.data_quality.is_valid
      r.data_quality.errors [] <:+: format_validation_report_lines r) ∧
    (sectionLines "BUSINESS RULES:" r.business_rules.is_valid
      r.business_rules.errors r.business_rules.warnings <:+:
        format_validation_report_lines r) ∧
    (∀ t : String, ∀ v : Bool, ∀ es ws : List String,
      (sectionLines t v es ws).get? 1 = some ("  Status: " ++ statusWord v) ∧
      (∀ e ∈ es, "    - " ++ e ∈ sectionLines t v es ws) ∧
      (∀ w ∈ ws, "    - " ++ w ∈ sectionLines t v es ws)) ∧
    (∀ v : Bool,
      (("  Status: " ++ statusWord v) = "  Status: PASS" ↔ v = true) ∧
      (("  Status: " ++ statusWord v) = "  Status: FAIL" ↔ v = false)) ∧
    List.Sublist
      ["REFERENTIAL INTEGRITY:", "TIME CONSTRAINTS:", "INTERVAL CALCULATIONS:",
        "DATA QUALITY:", "BUSINESS RULES:"] (format_validation_report_lines r) := by
  refine ⟨rfl, overall_pass_mem r, overall_fail_mem r, ?_, ?_, ?_, ?_, ?_, ?_, ?_, ?_⟩
  · simp only [format_validation_report_lines, List.append_assoc,
      List.cons_append, List.nil_append]
    iterate 8 apply List.infix_cons
    exact (List.prefix_append _ _).isInfix
  · simp only [format_validation_report_lines, List.append_assoc,
      List.cons_append, List.nil_append]
    iterate 8 apply List.infix_cons
    exact ((List.prefix_append _ _).isInfix).trans
      (List.suffix_append _ _).isInfix
  · simp only [format_validation_report_lines, List.append_assoc,
      List.cons_append, List.nil_append]
    iterate 8 apply List.infix_cons
    exact (((List.prefix_append _ _).isInfix).trans
      (List.suffix_append _ _).isInfix).trans
      (List.suffix_append _ _).isInfix
  · simp only [format_validation_report_lines, List.append_assoc,
      List.cons_append, List.nil_append]
    iterate 8 apply List.infix_cons
    exact ((((List.prefix_append _ _).isInfix).trans
      (List.suffix_append _ _).isInfix).trans
      (List.suffix_append _ _).isInfix).trans
      (List.suffix_append _ _).isInfix
  · simp only [format_validation_report_lines, List.append_assoc,
      List.cons_append, List.nil_append]
    iterate 8 apply List.infix_cons
    exact (((((List.prefix_append _ _).isInfix).trans
      (List.suffix_append _ _).isInfix).trans
      (List.suffix_append _ _).isInfix).trans
      (List.suffix_append _ _).isInfix).trans
      (List.suffix_append _ _).isInfix
  · intro t v es ws
    refine ⟨rfl, ?_, ?_⟩
    · intro e he
      have hne : es.isEmpty = false :=
        List.isEmpty_eq_false.mpr (List.ne_nil_of_mem he)
      have hE : ("    - " ++ e) ∈ (if es.isEmpty then [] else
          "  Errors:" :: es.map fun x => "    - " ++ x) := by
        simp only [hne, Bool.false_eq_true, if_false, List.mem_cons,
          List.mem_map]
        exact Or.inr ⟨e, he, rfl⟩
      exact List.mem_append_left _ (List.mem_append_left _
        (List.mem_append_right _ hE))
    · intro w hw
      have hne : ws.isEmpty = false :=
        List.isEmpty_eq_false.mpr (List.ne_nil_of_mem hw)
      have hW : ("    - " ++ w) ∈ (if ws.isEmpty then [] else
          "  Warnings:" :: ws.map fun x => "    - " ++ x) := by
        simp only [hne, Bool.false_eq_true, if_false, List.mem_cons,
          List.mem_map]
        exact Or.inr ⟨w, hw, rfl⟩
      exact List.mem_append_left _ (List.mem_append_right _ hW)
  · intro v
    cases v <;> exact ⟨by decide, by decide⟩
  · have h5 : List.Sublist ["BUSINESS RULES:"]
        (sectionLines "BUSINESS RULES:" r.business_rules.is_valid
          r.business_rules.errors r.business_rules.warnings ++ [eqLine]) :=
      List.singleton_sublist.mpr
        (List.mem_append_left _ (title_mem_sectionLines _ _ _ _))
    have h4 : List.Sublist ["DATA QUALITY:"]
        (sectionLines "DATA QUALITY:" r.data_quality.is_valid
          r.data_quality.errors []) :=
      List.singleton_sublist.mpr (title_mem_sectionLines _ _ _ _)
    have h3 : List.Sublist ["INTERVAL CALCULATIONS:"]
        (sectionLines "INTERVAL CALCULATIONS:" r.interval_calculations.is_valid
          r.interval_calculations.errors []) :=
      List.singleton_sublist.mpr (title_mem_sectionLines _ _ _ _)
    have h2 : List.Sublist ["TIME CONSTRAINTS:"]
        (sectionLines "TIME CONSTRAINTS:" r.time_constraints.is_valid
          r.time_constraints.errors []) :=
      List.singleton_sublist.mpr (title_mem_sectionLines _ _ _ _)
    have h1 : List.Sublist ["REFERENTIAL INTEGRITY:"]
        (sectionLines "REFERENTIAL INTEGRITY:" r.referential_integrity.is_valid
          r.referential_integrity.errors []) :=
      List.singleton_sublist.mpr (title_mem_sectionLines _ _ _ _)
    have hall := h1.append (h2.append (h3.append (h4.append h5)))
    simp only [format_validation_report_lines, List.append_assoc,
      List.cons_append, List.nil_append]
    iterate 8 apply List.Sublist.cons
    exact hall
